import Mathlib

/-!
Shallow embedding of the Columbus Dispatch morning-summary bot
(`bot.py`): link extraction, article-content extraction, the summarizer
retry loop with its deterministic fallback, the markdown-to-HTML
renderer, and the daily pipeline entry point, together with theorems
about them.

Conventions of the embedding:
* Python strings are Lean `String`s; positional slicing `s[:n]`,
  `str.strip()` and `str.lower()` are modelled on the `List Char`
  representation (`strTake`, `pyStrip`, `pyLower`).
* Network calls are modelled as explicit oracle inputs: a fetched page
  is `Option` of its parsed shape (`none` = any fetch/parse error), and
  the chat-completion endpoint is a function from prompt and timeout to
  `Option String` (`none` = timeout, network error, non-2xx status or
  malformed response body).
* Side effects that the claims talk about (API attempts, sleeps,
  collaborator invocations) are reified as event lists returned next to
  the values.
-/

/-! ### Basic string helpers (Python semantics) -/

-- Whitespace as recognised by `str.strip()` (ASCII fragment).
def wsChar (c : Char) : Bool :=
  c = ' ' || c = '\t' || c = '\n' || c = '\r'

-- `l` with leading and trailing whitespace removed (`str.strip()`).
def stripList (l : List Char) : List Char :=
  ((l.dropWhile wsChar).reverse.dropWhile wsChar).reverse

def pyStrip (s : String) : String :=
  ⟨stripList s.data⟩

-- Python slicing `s[:n]` counts code points, as does `List.take` on `data`.
def strTake (s : String) (n : Nat) : String :=
  ⟨s.data.take n⟩

-- `str.lower()` (ASCII fragment, which is all the keywords need).
def pyLower (s : String) : String :=
  ⟨s.data.map Char.toLower⟩

-- Python substring test `p in s`.
def containsSub (p : List Char) : List Char → Bool
  | [] => p.isEmpty
  | s@(_ :: rest) => p.isPrefixOf s || containsSub p rest

-- Python `sep.join(parts)`.
def joinSep (sep : String) : List String → String
  | [] => ""
  | [x] => x
  | x :: xs => x ++ sep ++ joinSep sep xs

/-! ### Data model -/

structure Article where
  title : String
  url : String
  content : String
deriving DecidableEq

-- An anchor element as far as `scrape_articles` inspects it:
-- its `href` attribute and its visible text (`get_text` before stripping).
structure Anchor where
  href : String
  text : String
deriving DecidableEq

/-! ### Link extractor (`scrape_articles`, bot.py lines 35-82) -/

def base_url : String := "https://www.dispatch.com"

def newsKeywords : List String := ["/story/", "/news/", "/sports/", "/business/"]

def isCandidate (href : String) : Bool :=
  newsKeywords.any fun k => containsSub k.data (pyLower href).data

def resolve (base href : String) : String :=
  if "/".data.isPrefixOf href.data then base ++ href else href

def scrapeLoop (base : String) (maxA : Nat) :
    List Anchor → List Article → List String → List Article
  | [], arts, _ => arts
  | l :: ls, arts, processed =>
    if l.href = "" then scrapeLoop base maxA ls arts processed
    else if isCandidate l.href then
      let fullUrl := resolve base l.href
      if fullUrl ∉ processed ∧ arts.length < maxA then
        let title := pyStrip l.text
        if title ≠ "" ∧ title.length > 10 then
          scrapeLoop base maxA ls (arts ++ [⟨title, fullUrl, ""⟩]) (fullUrl :: processed)
        else scrapeLoop base maxA ls arts processed
      else scrapeLoop base maxA ls arts processed
    else scrapeLoop base maxA ls arts processed

-- `scrape_articles`: the homepage fetch either fails (`none`, the
-- except-branch that logs and returns `[]`) or yields the anchors of the
-- page; each accepted article then has its content filled in by
-- `get_article_content`, modelled by the total oracle `getContent`
-- (the per-article try-block keeps the empty content on failure, and the
-- oracle is total).
def scrape_articles (fetch : Option (List Anchor)) (getContent : String → String)
    (maxArticles : Nat) : List Article :=
  match fetch with
  | none => []
  | some links =>
    (scrapeLoop base_url maxArticles links [] []).map
      fun a => { a with content := getContent a.url }

/-! ### Content extractor (`get_article_content`, bot.py lines 84-117) -/

-- A fetched article page as far as `get_article_content` inspects it:
-- for each of the five CSS selector strategies, the texts of the
-- matching elements (before stripping), plus the texts of all `<p>`
-- elements of the document for the fallback scan.
structure Doc where
  articleBody : List String
  storyBody : List String
  entryContent : List String
  articleP : List String
  contentP : List String
  paragraphs : List String
deriving DecidableEq

-- The ordered selector strategies `content_selectors`.
def content_selectors (d : Doc) : List (List String) :=
  [d.articleBody, d.storyBody, d.entryContent, d.articleP, d.contentP]

-- The selector loop: first selector with matching elements wins,
-- joining stripped texts with single spaces.
def selectContent : List (List String) → String
  | [] => ""
  | els :: rest => if els = [] then selectContent rest else joinSep " " (els.map pyStrip)

def paraFallback (d : Doc) : String :=
  joinSep " " ((d.paragraphs.take 10).map pyStrip)

def get_article_content (fetch : Option Doc) : String :=
  match fetch with
  | none => ""
  | some d =>
    let content := selectContent (content_selectors d)
    let content := if content = "" then paraFallback d else content
    strTake content 2000

/-! ### Summarizer (`summarize_with_deepseek`, bot.py lines 119-186) -/

-- An observable side effect of the retry loop: an API attempt with its
-- timeout in seconds, or a `time.sleep` of the given number of seconds.
inductive ApiEvent where
  | attempt (timeout : Nat)
  | sleep (secs : Nat)
deriving DecidableEq

def systemPrompt : String :=
  "You are a friendly local news summarizer for Columbus, Ohio residents. Create a warm, engaging summary that makes people feel connected to their community. Focus on the most important local stories and present them in a conversational, optimistic tone that helps start the day positively."

def content_for_summary (articles : List Article) : String :=
  (articles.enum.map fun p =>
      "\n\nArticle " ++ toString (p.1 + 1) ++ ": " ++ p.2.title ++ "\n" ++
        strTake p.2.content 500).foldl (· ++ ·) ""

def userPrompt (articles : List Article) : String :=
  "Please create a warm, engaging morning summary of these Columbus Dispatch articles. Group similar topics together and highlight what matters most to Columbus residents. Keep it informative but uplifting:\n" ++
    content_for_summary articles

/-! #### Deterministic fallback summary (`create_fallback_summary`, lines 188-231) -/

def localWords : List String := ["columbus", "ohio", "local", "city", "county"]

def sportsWords : List String := ["sports", "game", "team", "player", "score"]

def businessWords : List String := ["business", "economy", "market", "company"]

-- `any(word in title_lower for word in words)`.
def matchesAny (titleLower : String) (words : List String) : Bool :=
  words.any fun w => containsSub w.data titleLower.data

structure Categories where
  localNews : List String
  sports : List String
  business : List String
  other : List String
deriving DecidableEq

-- The body of the `for article in articles[:8]` loop: append the title
-- to the first category whose keyword list matches the lowercased title.
def assignArticle (cats : Categories) (a : Article) : Categories :=
  let tl := pyLower a.title
  if matchesAny tl localWords then
    { cats with localNews := cats.localNews ++ [a.title] }
  else if matchesAny tl sportsWords then
    { cats with sports := cats.sports ++ [a.title] }
  else if matchesAny tl businessWords then
    { cats with business := cats.business ++ [a.title] }
  else
    { cats with other := cats.other ++ [a.title] }

def buildCategories (articles : List Article) : Categories :=
  (articles.take 8).foldl assignArticle ⟨[], [], [], []⟩

-- The sections the emission loop walks over: the dict items in insertion
-- order, keeping only non-empty categories, at most 3 titles each.
def categorySections (articles : List Article) : List (String × List String) :=
  let c := buildCategories articles
  ([("Local News", c.localNews), ("Sports", c.sports),
    ("Business", c.business), ("Other", c.other)]).filterMap
    fun p => if p.2 = [] then none else some (p.1, p.2.take 3)

-- ASCII apostrophe, kept out of string literals.
def apos : String := String.singleton (Char.ofNat 39)

def sectionText (name : String) (titles : List String) : String :=
  "\n🏷️ <strong>" ++ name ++ ":</strong><br>\n" ++
    (titles.map fun t => "• " ++ t ++ "<br>\n").foldl (· ++ ·) "" ++ "<br>\n"

def create_fallback_summary (today : String) (articles : List Article) : String :=
  "Good morning, Columbus! ☀️\n\nWhile our AI summarizer is taking a coffee break, here" ++
    apos ++ "s what" ++ apos ++ "s happening in our city today (" ++ today ++
    "):\n\n📰 <strong>Top Stories from The Columbus Dispatch:</strong>\n\n" ++
    ((categorySections articles).map fun p => sectionText p.1 p.2).foldl (· ++ ·) "" ++
    "Stay informed, stay connected, and have a wonderful day in Columbus! 🌆<br><br>\n\nCheck out the full articles below for all the details."

/-! #### The retry loop -/

-- `for attempt in range(3)`: attempt `i` uses timeout `30 + 15*i`; a
-- failed attempt other than the last is followed by `time.sleep(5)`.
-- The endpoint is the oracle `call` from the request prompt and timeout
-- to `none` (timeout / network error / non-2xx / malformed body) or the
-- returned message text.
def attemptLoop (call : String → Nat → Option String) (prompt : String) :
    List Nat → List ApiEvent × Option String
  | [] => ([], none)
  | attempt :: rest =>
    let timeout := 30 + attempt * 15
    match call prompt timeout with
    | some s => ([ApiEvent.attempt timeout], some s)
    | none =>
      let evs := if attempt < 2 then [ApiEvent.attempt timeout, ApiEvent.sleep 5]
        else [ApiEvent.attempt timeout]
      let next := attemptLoop call prompt rest
      (evs ++ next.1, next.2)

-- `summarize_with_deepseek` returns its API-event trace next to the
-- summary; the summary is a plain `String` because the Python function
-- can never raise: exhausted retries fall back to
-- `create_fallback_summary`.
def summarize_with_deepseek (call : String → Nat → Option String) (today : String)
    (articles : List Article) : List ApiEvent × String :=
  match attemptLoop call (userPrompt articles) (List.range 3) with
  | (evs, some s) => (evs, s)
  | (evs, none) => (evs, create_fallback_summary today articles)

/-! ### Markdown renderer (`convert_markdown_to_html`, bot.py lines 233-257) -/

-- Split on newline characters (`re.MULTILINE` line structure).
def splitNl : List Char → List (List Char)
  | [] => [[]]
  | c :: rest =>
    let r := splitNl rest
    if c = '\n' then [] :: r
    else
      match r with
      | [] => [[c]]
      | x :: xs => (c :: x) :: xs

-- One `re.MULTILINE` line under `^<pre>(.+)$`: the pattern matches when
-- the line starts with `pre` and at least one character follows.
def headerLine (pre tagO tagC line : List Char) : List Char :=
  if pre.isPrefixOf line && pre.length < line.length then
    tagO ++ line.drop pre.length ++ tagC
  else line

def subHeader (pre tagO tagC : List Char) (text : List Char) : List Char :=
  List.intercalate ['\n'] ((splitNl text).map (headerLine pre tagO tagC))

-- Lazy body of `d(.+?)d`: consume non-newline characters one at a time,
-- closing at the earliest occurrence of the delimiter `d`.
def scanInner (d : List Char) : List Char → Option (List Char × List Char)
  | [] => none
  | c :: rest =>
    if c = '\n' then none
    else if d.isPrefixOf rest then some ([c], rest.drop d.length)
    else
      match scanInner d rest with
      | some (inner, rem) => some (c :: inner, rem)
      | none => none

-- `re.sub` for the delimiter patterns: scan left to right, replace each
-- match and resume after it. The fuel argument (initially the input
-- length, here always sufficient since every step consumes a character)
-- keeps the recursion structural.
def subDelim (d tagO tagC : List Char) : Nat → List Char → List Char
  | _, [] => []
  | 0, s => s
  | fuel + 1, s@(c :: rest) =>
    if d.isPrefixOf s then
      match scanInner d (s.drop d.length) with
      | some (inner, rem) => tagO ++ inner ++ tagC ++ subDelim d tagO tagC fuel rem
      | none => c :: subDelim d tagO tagC fuel rest
    else c :: subDelim d tagO tagC fuel rest

def subDelimAll (d tagO tagC s : List Char) : List Char :=
  subDelim d tagO tagC s.length s

-- `str.replace('\n', '<br>')`.
def nlToBr (l : List Char) : List Char :=
  (l.map fun c => if c = '\n' then "<br>".data else [c]).flatten

-- `re.sub` for a literal pattern.
def subLit (pat rep : List Char) : Nat → List Char → List Char
  | _, [] => []
  | 0, s => s
  | fuel + 1, s@(c :: rest) =>
    if pat.isPrefixOf s then rep ++ subLit pat rep fuel (s.drop pat.length)
    else c :: subLit pat rep fuel rest

def subLitAll (pat rep s : List Char) : List Char :=
  subLit pat rep s.length s

def convertList (t0 : List Char) : List Char :=
  let t := subHeader "### ".data "<h3>".data "</h3>".data t0
  let t := subHeader "## ".data "<h2>".data "</h2>".data t
  let t := subHeader "# ".data "<h1>".data "</h1>".data t
  let t := subDelimAll "**".data "<strong>".data "</strong>".data t
  let t := subDelimAll "*".data "<em>".data "</em>".data t
  let t := nlToBr t
  let t := subLitAll "<br><br>".data "</p><p>".data t
  let t := "<p>".data ++ t ++ "</p>".data
  let t := subLitAll "<p></p>".data [] t
  let t := subLitAll "<p><br></p>".data [] t
  t

def convert_markdown_to_html (text : String) : String :=
  ⟨convertList text.data⟩

/-! ### Email assembly and pipeline (`create_beautiful_email`,
`run_daily_summary`, bot.py lines 259-447) -/

def articleItem (a : Article) : String :=
  "<div class=\"article-item\"><div class=\"article-title\"><a href=\"" ++ a.url ++
    "\" target=\"_blank\">" ++ a.title ++ "</a></div></div>"

-- The HTML template around the rendered summary and the first 8 article
-- links; the static style block of the source is not reproduced
-- character for character (no claim depends on it).
def create_beautiful_email (today summary : String) (articles : List Article) : String :=
  "<html><head><meta charset=\"UTF-8\"></head><body><div class=\"container\"><div class=\"header\"><h1>🌅 Good Morning, Columbus!</h1><div class=\"date\">" ++
    today ++
    "</div></div><div class=\"summary\"><h2>📰 Today" ++ apos ++
    "s Highlights</h2><div class=\"summary-content\">" ++
    convert_markdown_to_html summary ++
    "</div></div><div class=\"articles-section\"><h3>🔗 Full Articles</h3>" ++
    ((articles.take 8).map articleItem).foldl (· ++ ·) "" ++
    "</div><div class=\"footer\"></div></div></body></html>"

-- The collaborator invocations the pipeline can make, in order, plus
-- the warning log of the empty-articles early return.
inductive PipeEvent where
  | warnNoArticles
  | summarizerCall
  | rendererCall
  | sendCall
deriving DecidableEq

-- `run_daily_summary`: scrape; if nothing was found, log a warning and
-- return; otherwise summarize, render into the email body, and send.
-- The returned string is the email body handed to the send collaborator
-- (`none` when no email is produced).
def run_daily_summary (fetch : Option (List Anchor)) (getContent : String → String)
    (call : String → Nat → Option String) (today : String) :
    List PipeEvent × Option String :=
  let articles := scrape_articles fetch getContent 10
  if articles = [] then ([PipeEvent.warnNoArticles], none)
  else
    let summary := (summarize_with_deepseek call today articles).2
    let html := create_beautiful_email today summary articles
    ([PipeEvent.summarizerCall, PipeEvent.rendererCall, PipeEvent.sendCall], some html)

/-! ### Spec-side definitions

These follow the specification text rather than the source; they are
compared against the embedded code in the theorems below. -/

inductive Category where
  | localNews | sports | business | other
deriving DecidableEq

-- The per-title priority assignment of §4.4.1: the first matching
-- category in the order Local News, Sports, Business, else Other.
-- Its discriminants are the very checks of the source loop, so the
-- theorems relate the stateful dict-building loop to this function.
def categorize (title : String) : Category :=
  let tl := pyLower title
  if matchesAny tl localWords then Category.localNews
  else if matchesAny tl sportsWords then Category.sports
  else if matchesAny tl businessWords then Category.business
  else Category.other

-- The titles the spec says a category receives: among the first 8
-- articles, those whose title the priority assignment sends there.
def specAssigned (articles : List Article) (c : Category) : List String :=
  ((articles.take 8).filter fun a => decide (categorize a.title = c)).map
    fun a => a.title

-- An absolute URL in the sense of §4.2: it carries an explicit http(s)
-- scheme rather than being a relative reference.
def specAbsoluteUrl (s : String) : Bool :=
  "http://".data.isPrefixOf s.data || "https://".data.isPrefixOf s.data

/-! ### Helper lemmas -/

theorem containsSub_iff (p : List Char) : ∀ s, containsSub p s = true ↔ p <:+: s
  | [] => by
    simp [containsSub, List.isEmpty_iff, List.infix_nil]
  | c :: rest => by
    simp only [containsSub, Bool.or_eq_true, List.isPrefixOf_iff_prefix,
      containsSub_iff p rest, List.infix_cons_iff]

theorem dropWhile_dropWhile (p : α → Bool) :
    ∀ l : List α, List.dropWhile p (List.dropWhile p l) = List.dropWhile p l
  | [] => rfl
  | a :: l => by
    by_cases h : p a
    · simp [List.dropWhile_cons, h, dropWhile_dropWhile p l]
    · simp [List.dropWhile_cons, h]

-- Removing trailing whitespace from a list whose head is not whitespace
-- leaves the head (if anything) in place.
theorem dropWhile_of_dropWhile_eq_self (p : α → Bool) (l : List α)
    (h : List.dropWhile p l = l) :
    List.dropWhile p (List.dropWhile p l.reverse).reverse
      = (List.dropWhile p l.reverse).reverse := by
  cases l with
  | nil => simp
  | cons a t =>
    have ha : p a = false := by
      by_cases hpa : p a
      · exfalso
        have hlen := congrArg List.length h
        simp only [List.dropWhile_cons, hpa, if_pos] at hlen
        have hle := (List.dropWhile_sublist (l := t) p).length_le
        simp only [List.length_cons] at hlen
        omega
      · exact Bool.eq_false_iff.mpr hpa
    have hsuff : List.dropWhile p (a :: t).reverse <:+ (a :: t).reverse :=
      List.dropWhile_suffix p
    have hpre : (List.dropWhile p (a :: t).reverse).reverse <+: (a :: t) := by
      have hp := List.reverse_prefix.mpr hsuff
      rwa [List.reverse_reverse] at hp
    have hne : List.dropWhile p (a :: t).reverse ≠ [] := by
      intro hnil
      have hall : ∀ x ∈ (a :: t).reverse, p x := List.dropWhile_eq_nil_iff.mp hnil
      have hpa := hall a (by simp)
      rw [ha] at hpa
      exact Bool.noConfusion hpa
    obtain ⟨r, hr⟩ := hpre
    cases hrev : (List.dropWhile p (a :: t).reverse).reverse with
    | nil =>
      exact absurd (by simpa using hrev) hne
    | cons b t' =>
      rw [hrev] at hr
      have hb : b = a := by
        have := congrArg (fun l => l.head?) hr
        simpa using this
      subst hb
      simp [List.dropWhile_cons, ha]

theorem stripList_idem (l : List Char) : stripList (stripList l) = stripList l := by
  unfold stripList
  set y := l.dropWhile wsChar with hy
  have h1 : List.dropWhile wsChar y = y := by rw [hy]; exact dropWhile_dropWhile wsChar l
  have h2 : List.dropWhile wsChar (List.dropWhile wsChar y.reverse).reverse
      = (List.dropWhile wsChar y.reverse).reverse :=
    dropWhile_of_dropWhile_eq_self wsChar y h1
  rw [h2, List.reverse_reverse, dropWhile_dropWhile]

theorem pyStrip_idem (s : String) : pyStrip (pyStrip s) = pyStrip s := by
  simp [pyStrip, stripList_idem]

theorem strTake_length_le (s : String) (n : Nat) : (strTake s n).length ≤ n := by
  have : (strTake s n).length = (s.data.take n).length := rfl
  rw [this, List.length_take]
  exact Nat.min_le_left _ _

/-! ### Claim theorems -/

/-- C6: for every fetch outcome, `get_article_content` returns a string
of length at most 2000 characters, and it never fails outward: any fetch
or parse error (the `none` case) yields the empty string. -/
theorem content_extractor_bounded_and_total :
    (∀ fetch : Option Doc, (get_article_content fetch).length ≤ 2000)
    ∧ get_article_content none = "" := by
  constructor
  · intro fetch
    cases fetch with
    | none => simp [get_article_content]
    | some d =>
      show (strTake _ 2000).length ≤ 2000
      exact strTake_length_le _ _
  · rfl

/-- C7: the renderer on `"**Hello** *world*\n\nSecond para"` wraps
`Hello` in a `<strong>` element, `world` in an `<em>` element, and
yields exactly two paragraph elements, the first carrying the emphasis
markup and the second carrying `Second para`. The bold pass runs before
the italic pass in `convertList`, exactly as in the source, and this
output certifies that order: an italic-first pass would have consumed
the leading `**` as two one-star matches and produced different
markup. -/
theorem renderer_two_paragraphs :
    convert_markdown_to_html "**Hello** *world*\n\nSecond para"
      = "<p><strong>Hello</strong> <em>world</em></p><p>Second para</p>" := by
  decide

/-- C8: the renderer on four newline characters yields no paragraph
elements at all: the line breaks collapse into empty paragraphs, which
the clean-up passes drop entirely. -/
theorem renderer_drops_empty_paragraphs :
    convert_markdown_to_html "\n\n\n\n" = "" := by
  decide

/-- C10: the fallback keyword match is substring containment on the
lowercased title, not whole-word matching: `matchesAny` holds exactly
when some keyword occurs as an infix of the (lowercased) title, so a
keyword inside a longer word classifies exactly as a standalone
occurrence — `game` inside `Endgame` yields Sports, `city` inside
`Velocity` yields Local News. -/
theorem keyword_match_is_substring_containment :
    (∀ (titleLower : String) (words : List String),
        matchesAny titleLower words = true
          ↔ ∃ w, w ∈ words ∧ w.data <:+: titleLower.data)
    ∧ categorize "Marvel Endgame premiere draws crowds" = Category.sports
    ∧ categorize "Velocity startup raises funds" = Category.localNews := by
  refine ⟨fun titleLower words => ?_, by decide, by decide⟩
  simp only [matchesAny, List.any_eq_true, containsSub_iff]

/-- C1: with an endpoint that fails on every call, the summarizer makes
exactly 3 attempts with timeouts 30, 45 and 60 seconds, sleeps 5 seconds
after each of the first two failed attempts and never after the third,
and returns the deterministic fallback summary. Failure can never
propagate to the caller: `summarize_with_deepseek` returns a plain
`String` (this total type is the embedding of the absence of any raised
exception). -/
theorem summarizer_retry_and_fallback (call : String → Nat → Option String)
    (today : String) (articles : List Article)
    (hfail : ∀ p t, call p t = none) (hne : articles ≠ []) :
    summarize_with_deepseek call today articles
      = ([ApiEvent.attempt 30, ApiEvent.sleep 5, ApiEvent.attempt 45,
          ApiEvent.sleep 5, ApiEvent.attempt 60],
         create_fallback_summary today articles) := by
  have hr : List.range 3 = [0, 1, 2] := by decide
  simp [summarize_with_deepseek, hr, attemptLoop, hfail]

/-- Witness for C1 at a concrete always-failing endpoint and a concrete
non-empty article list. -/
theorem summarizer_retry_and_fallback_witness :
    summarize_with_deepseek (fun _ _ => none) "May 05, 2025"
        [⟨"City council meets", "u", ""⟩]
      = ([ApiEvent.attempt 30, ApiEvent.sleep 5, ApiEvent.attempt 45,
          ApiEvent.sleep 5, ApiEvent.attempt 60],
         create_fallback_summary "May 05, 2025" [⟨"City council meets", "u", ""⟩]) :=
  summarizer_retry_and_fallback (fun _ _ => none) "May 05, 2025"
    [⟨"City council meets", "u", ""⟩] (fun _ _ => rfl) (by decide)

-- The stateful dict-building loop of `create_fallback_summary` agrees
-- with filtering by the priority assignment `categorize`.
theorem foldl_assign (l : List Article) : ∀ acc : Categories,
    l.foldl assignArticle acc =
      ⟨acc.localNews ++
          (l.filter fun a => decide (categorize a.title = Category.localNews)).map
            (fun a => a.title),
        acc.sports ++
          (l.filter fun a => decide (categorize a.title = Category.sports)).map
            (fun a => a.title),
        acc.business ++
          (l.filter fun a => decide (categorize a.title = Category.business)).map
            (fun a => a.title),
        acc.other ++
          (l.filter fun a => decide (categorize a.title = Category.other)).map
            (fun a => a.title)⟩ := by
  induction l with
  | nil => intro acc; simp
  | cons a t ih =>
    intro acc
    rw [List.foldl_cons, ih]
    by_cases h1 : matchesAny (pyLower a.title) localWords
    · have hc : categorize a.title = Category.localNews := by
        simp [categorize, h1]
      simp [assignArticle, h1, hc, List.filter_cons]
    · by_cases h2 : matchesAny (pyLower a.title) sportsWords
      · have hc : categorize a.title = Category.sports := by
          simp [categorize, h1, h2]
        simp [assignArticle, h1, h2, hc, List.filter_cons]
      · by_cases h3 : matchesAny (pyLower a.title) businessWords
        · have hc : categorize a.title = Category.business := by
            simp [categorize, h1, h2, h3]
          simp [assignArticle, h1, h2, h3, hc, List.filter_cons]
        · have hc : categorize a.title = Category.other := by
            simp [categorize, h1, h2, h3]
          simp [assignArticle, h1, h2, h3, hc, List.filter_cons]

/-- C2: the deterministic fallback summary considers exactly the first 8
articles; each category list of the building loop consists of the titles
whose first matching keyword category (priority order Local News,
Sports, Business, else Other — `categorize`) is that category; sections
are emitted only for non-empty categories, in the fixed order Local
News, Sports, Business, Other, each listing at most the first 3 titles
assigned to it; and `"Ohio State wins big game"` goes to Local News, not
Sports. -/
theorem fallback_summary_categorization (articles : List Article) :
    (buildCategories articles).localNews = specAssigned articles Category.localNews
    ∧ (buildCategories articles).sports = specAssigned articles Category.sports
    ∧ (buildCategories articles).business = specAssigned articles Category.business
    ∧ (buildCategories articles).other = specAssigned articles Category.other
    ∧ categorySections articles =
        ([("Local News", Category.localNews), ("Sports", Category.sports),
          ("Business", Category.business), ("Other", Category.other)]).filterMap
          (fun p => if specAssigned articles p.2 = [] then none
            else some (p.1, (specAssigned articles p.2).take 3))
    ∧ categorize "Ohio State wins big game" = Category.localNews := by
  have h := foldl_assign (articles.take 8) ⟨[], [], [], []⟩
  have hln : (buildCategories articles).localNews
      = specAssigned articles Category.localNews := by
    rw [buildCategories, h]; rfl
  have hsp : (buildCategories articles).sports
      = specAssigned articles Category.sports := by
    rw [buildCategories, h]; rfl
  have hbu : (buildCategories articles).business
      = specAssigned articles Category.business := by
    rw [buildCategories, h]; rfl
  have hot : (buildCategories articles).other
      = specAssigned articles Category.other := by
    rw [buildCategories, h]; rfl
  refine ⟨hln, hsp, hbu, hot, ?_, by decide⟩
  rw [categorySections]
  simp only [List.filterMap]
  rw [hln, hsp, hbu, hot]

-- What an anchor contributes to the candidate stream when it passes the
-- href filters (non-empty href containing a news path marker): its
-- stripped text and resolved URL, in document order.
def candAnchor (base : String) (l : Anchor) : Option (String × String) :=
  if l.href ≠ "" ∧ isCandidate l.href = true then
    some (pyStrip l.text, resolve base l.href)
  else none

-- The main invariant of the extraction loop.
theorem scrapeLoop_spec (base : String) (maxA : Nat) :
    ∀ (ls : List Anchor) (arts : List Article) (processed : List String),
      arts.length ≤ maxA →
      (∀ a ∈ arts, a.url ∈ processed) →
      ((arts.map fun a => a.url).Nodup) →
      (scrapeLoop base maxA ls arts processed).length ≤ maxA
      ∧ ((scrapeLoop base maxA ls arts processed).map fun a => a.url).Nodup
      ∧ ∃ t, scrapeLoop base maxA ls arts processed = arts ++ t
          ∧ (∀ a ∈ t,
              (∃ l, l ∈ ls ∧ a.title = pyStrip l.text ∧ a.url = resolve base l.href)
              ∧ a.title ≠ "" ∧ a.title.length > 10 ∧ a.content = "")
          ∧ List.Sublist (t.map fun a => (a.title, a.url))
              (ls.filterMap (candAnchor base)) := by
  intro ls
  induction ls with
  | nil =>
    intro arts processed hlen hmem hnd
    refine ⟨hlen, hnd, [], by simp [scrapeLoop], by simp, by simp [scrapeLoop]⟩
  | cons l ls ih =>
    intro arts processed hlen hmem hnd
    by_cases hhref : l.href = ""
    · have hcand : candAnchor base l = none := by
        simp [candAnchor, hhref]
      have hstep : scrapeLoop base maxA (l :: ls) arts processed
          = scrapeLoop base maxA ls arts processed := by
        simp [scrapeLoop, hhref]
      obtain ⟨h1, h2, t, ht, hprops, hsub⟩ := ih arts processed hlen hmem hnd
      refine ⟨hstep ▸ h1, hstep ▸ h2, t, hstep ▸ ht, ?_, ?_⟩
      · intro a ha
        obtain ⟨⟨l', hl', hrest⟩, hp⟩ := hprops a ha
        exact ⟨⟨l', List.mem_cons_of_mem _ hl', hrest⟩, hp⟩
      · rw [List.filterMap_cons, hcand]
        exact hsub
    · by_cases hc : isCandidate l.href
      · have hcand : candAnchor base l
            = some (pyStrip l.text, resolve base l.href) := by
          simp [candAnchor, hhref, hc]
        by_cases hfresh : resolve base l.href ∉ processed ∧ arts.length < maxA
        · by_cases htitle : pyStrip l.text ≠ "" ∧ (pyStrip l.text).length > 10
          · -- accepted
            have hstep : scrapeLoop base maxA (l :: ls) arts processed
                = scrapeLoop base maxA ls
                    (arts ++ [⟨pyStrip l.text, resolve base l.href, ""⟩])
                    (resolve base l.href :: processed) := by
              simp only [scrapeLoop]
              rw [if_neg hhref, if_pos hc, if_pos hfresh, if_pos htitle]
            have hnotin : resolve base l.href ∉ arts.map fun a => a.url := by
              intro hin
              obtain ⟨a, ha, hu⟩ := List.mem_map.mp hin
              exact hfresh.1 (hu ▸ hmem a ha)
            have hlen' : (arts ++ [(⟨pyStrip l.text, resolve base l.href, ""⟩ : Article)]).length ≤ maxA := by
              simp only [List.length_append, List.length_cons, List.length_nil]
              omega
            have hmem' : ∀ a ∈ arts ++ [(⟨pyStrip l.text, resolve base l.href, ""⟩ : Article)],
                a.url ∈ resolve base l.href :: processed := by
              intro a ha
              rcases List.mem_append.mp ha with h | h
              · exact List.mem_cons_of_mem _ (hmem a h)
              · simp only [List.mem_singleton] at h
                subst h
                exact List.mem_cons_self _ _
            have hnd' : (((arts ++ [(⟨pyStrip l.text, resolve base l.href, ""⟩ : Article)]).map
                fun a => a.url)).Nodup := by
              rw [List.map_append]
              simp only [List.map_cons, List.map_nil]
              rw [List.nodup_append]
              refine ⟨hnd, List.nodup_singleton _, ?_⟩
              intro x hx hx'
              simp only [List.mem_singleton] at hx'
              subst hx'
              exact hnotin hx
            obtain ⟨h1, h2, t, ht, hprops, hsub⟩ :=
              ih (arts ++ [⟨pyStrip l.text, resolve base l.href, ""⟩])
                (resolve base l.href :: processed) hlen' hmem' hnd'
            refine ⟨hstep ▸ h1, hstep ▸ h2,
              ⟨pyStrip l.text, resolve base l.href, ""⟩ :: t, ?_, ?_, ?_⟩
            · rw [hstep, ht, List.append_assoc]
              rfl
            · intro a ha
              rcases List.mem_cons.mp ha with h | h
              · subst h
                exact ⟨⟨l, List.mem_cons_self _ _, rfl, rfl⟩, htitle.1, htitle.2, rfl⟩
              · obtain ⟨⟨l', hl', hrest⟩, hp⟩ := hprops a h
                exact ⟨⟨l', List.mem_cons_of_mem _ hl', hrest⟩, hp⟩
            · rw [List.filterMap_cons, hcand, List.map_cons]
              exact List.Sublist.cons₂ _ hsub
          · -- title too short: skipped, but still a candidate
            have hstep : scrapeLoop base maxA (l :: ls) arts processed
                = scrapeLoop base maxA ls arts processed := by
              simp only [scrapeLoop]
              rw [if_neg hhref, if_pos hc, if_pos hfresh, if_neg htitle]
            obtain ⟨h1, h2, t, ht, hprops, hsub⟩ := ih arts processed hlen hmem hnd
            refine ⟨hstep ▸ h1, hstep ▸ h2, t, hstep ▸ ht, ?_, ?_⟩
            · intro a ha
              obtain ⟨⟨l', hl', hrest⟩, hp⟩ := hprops a ha
              exact ⟨⟨l', List.mem_cons_of_mem _ hl', hrest⟩, hp⟩
            · rw [List.filterMap_cons, hcand]
              exact List.Sublist.cons _ hsub
        · -- duplicate URL or cap reached: skipped, but still a candidate
          have hstep : scrapeLoop base maxA (l :: ls) arts processed
              = scrapeLoop base maxA ls arts processed := by
            simp only [scrapeLoop]
            rw [if_neg hhref, if_pos hc, if_neg hfresh]
          obtain ⟨h1, h2, t, ht, hprops, hsub⟩ := ih arts processed hlen hmem hnd
          refine ⟨hstep ▸ h1, hstep ▸ h2, t, hstep ▸ ht, ?_, ?_⟩
          · intro a ha
            obtain ⟨⟨l', hl', hrest⟩, hp⟩ := hprops a ha
            exact ⟨⟨l', List.mem_cons_of_mem _ hl', hrest⟩, hp⟩
          · rw [List.filterMap_cons, hcand]
            exact List.Sublist.cons _ hsub
      · have hcand : candAnchor base l = none := by
          simp [candAnchor, hc]
        have hstep : scrapeLoop base maxA (l :: ls) arts processed
            = scrapeLoop base maxA ls arts processed := by
          simp only [scrapeLoop]
          rw [if_neg hhref, if_neg (by simpa using hc)]
        obtain ⟨h1, h2, t, ht, hprops, hsub⟩ := ih arts processed hlen hmem hnd
        refine ⟨hstep ▸ h1, hstep ▸ h2, t, hstep ▸ ht, ?_, ?_⟩
        · intro a ha
          obtain ⟨⟨l', hl', hrest⟩, hp⟩ := hprops a ha
          exact ⟨⟨l', List.mem_cons_of_mem _ hl', hrest⟩, hp⟩
        · rw [List.filterMap_cons, hcand]
          exact hsub

/-- C3: for every HTML document (anchor list) and every cap, link
extraction returns at most `maxc` entries with pairwise distinct URLs,
every returned title has trimmed length strictly greater than 10, and
the accepted entries appear in document order: their (title, url) pairs
form a sublist of the stream of filter-passing candidates in document
order. The dedup-on-accepted-URLs and the cap are what the `Nodup` and
length bounds certify. -/
theorem link_extractor_properties (html : List Anchor) (g : String → String)
    (maxc : Nat) :
    (scrape_articles (some html) g maxc).length ≤ maxc
    ∧ ((scrape_articles (some html) g maxc).map fun a => a.url).Nodup
    ∧ (∀ a ∈ scrape_articles (some html) g maxc, (pyStrip a.title).length > 10)
    ∧ List.Sublist
        ((scrape_articles (some html) g maxc).map fun a => (a.title, a.url))
        (html.filterMap (candAnchor base_url)) := by
  obtain ⟨h1, h2, t, ht, hprops, hsub⟩ :=
    scrapeLoop_spec base_url maxc html [] [] (by simp) (by simp) (by simp)
  rw [List.nil_append] at ht
  have hcomp1 : ((fun a : Article => a.url) ∘
      fun a : Article => { a with content := g a.url }) = fun a : Article => a.url :=
    funext fun a => rfl
  have hcomp2 : ((fun a : Article => (a.title, a.url)) ∘
      fun a : Article => { a with content := g a.url })
        = fun a : Article => (a.title, a.url) :=
    funext fun a => rfl
  have hout : scrape_articles (some html) g maxc
      = (scrapeLoop base_url maxc html [] []).map
          (fun a : Article => { a with content := g a.url }) := rfl
  refine ⟨?_, ?_, ?_, ?_⟩
  · rw [hout, List.length_map]
    exact h1
  · rw [hout, List.map_map, hcomp1]
    exact h2
  · intro a ha
    rw [hout] at ha
    obtain ⟨b, hb, hba⟩ := List.mem_map.mp ha
    have hbt : b ∈ t := ht ▸ hb
    obtain ⟨⟨l, _, hbtitle, _⟩, _, hlen10, _⟩ := hprops b hbt
    have hat : a.title = b.title := by rw [← hba]
    rw [hat, hbtitle, pyStrip_idem, ← hbtitle]
    exact hlen10
  · rw [hout, List.map_map, hcomp2, ht]
    exact hsub

/-- Witness for C3: the title-length bound instantiated at a concrete
document and a concrete returned entry. -/
theorem link_extractor_properties_witness :
    (pyStrip "A sufficiently long headline").length > 10 :=
  (link_extractor_properties [⟨"/news/x", "A sufficiently long headline"⟩]
      (fun _ => "") 10).2.2.1
    ⟨"A sufficiently long headline", "https://www.dispatch.com/news/x", ""⟩
    (by decide)

/-- C4, counterexample: an href that contains a news path marker but has
no leading slash is emitted verbatim, so the output URL
`"foo/news/bar"` is not absolute (it has no http(s) scheme). This
refutes the claim that every URL in the output is absolute. -/
theorem url_resolution_counterexample :
    scrape_articles (some [⟨"foo/news/bar", "A sufficiently long headline"⟩])
        (fun _ => "") 10
      = [⟨"A sufficiently long headline", "foo/news/bar", ""⟩]
    ∧ specAbsoluteUrl "foo/news/bar" = false := by
  exact ⟨by decide, by decide⟩

-- A URL resolved against the fixed base is always absolute.
theorem specAbsoluteUrl_base_append (s : String) :
    specAbsoluteUrl (base_url ++ s) = true := by
  have hdata : (base_url ++ s).data = base_url.data ++ s.data := by
    cases s with
    | mk d => rfl
  have hpre : "https://".data <+: base_url.data ++ s.data := by
    have h1 : "https://".data <+: base_url.data := by decide
    exact h1.trans (List.prefix_append base_url.data s.data)
  simp only [specAbsoluteUrl, hdata, Bool.or_eq_true, List.isPrefixOf_iff_prefix]
  exact Or.inr hpre

/-- C4, amended: every output URL of link extraction comes from some
anchor of the document; a candidate href with a leading `/` is resolved
by concatenating the base URL with the href — yielding an absolute URL,
since the base carries the https scheme — while an href without a
leading `/` is emitted verbatim, absolute or not. -/
theorem url_resolution_amended (html : List Anchor) (g : String → String)
    (maxc : Nat) :
    ∀ a ∈ scrape_articles (some html) g maxc,
      (∃ l, l ∈ html ∧ "/".data.isPrefixOf l.href.data = true
        ∧ a.url = base_url ++ l.href ∧ specAbsoluteUrl a.url = true)
      ∨ (∃ l, l ∈ html ∧ "/".data.isPrefixOf l.href.data = false ∧ a.url = l.href) := by
  intro a ha
  obtain ⟨_, _, t, ht, hprops, _⟩ :=
    scrapeLoop_spec base_url maxc html [] [] (by simp) (by simp) (by simp)
  rw [List.nil_append] at ht
  obtain ⟨b, hb, hba⟩ := List.mem_map.mp ha
  have hbt : b ∈ t := ht ▸ hb
  obtain ⟨⟨l, hl, _, hburl⟩, _⟩ := hprops b hbt
  have hau : a.url = b.url := by rw [← hba]
  by_cases hslash : "/".data.isPrefixOf l.href.data
  · left
    refine ⟨l, hl, hslash, ?_, ?_⟩
    · rw [hau, hburl, resolve, if_pos hslash]
    · rw [hau, hburl, resolve, if_pos hslash]
      exact specAbsoluteUrl_base_append l.href
  · right
    refine ⟨l, hl, Bool.eq_false_iff.mpr hslash, ?_⟩
    rw [hau, hburl, resolve, if_neg hslash]

/-- Witness for the amended claim of C4 at a concrete document and a concrete
returned entry whose href has a leading slash. -/
theorem url_resolution_amended_witness :
    (∃ l, l ∈ [(⟨"/news/x", "A sufficiently long headline"⟩ : Anchor)]
      ∧ "/".data.isPrefixOf l.href.data = true
      ∧ (Article.url ⟨"A sufficiently long headline",
          "https://www.dispatch.com/news/x", ""⟩) = base_url ++ l.href
      ∧ specAbsoluteUrl (Article.url ⟨"A sufficiently long headline",
          "https://www.dispatch.com/news/x", ""⟩) = true)
    ∨ (∃ l, l ∈ [(⟨"/news/x", "A sufficiently long headline"⟩ : Anchor)]
      ∧ "/".data.isPrefixOf l.href.data = false
      ∧ (Article.url ⟨"A sufficiently long headline",
          "https://www.dispatch.com/news/x", ""⟩) = l.href) :=
  url_resolution_amended [⟨"/news/x", "A sufficiently long headline"⟩]
    (fun _ => "") 10
    ⟨"A sufficiently long headline", "https://www.dispatch.com/news/x", ""⟩
    (by decide)

-- The selector loop picks the first strategy with at least one element.
theorem selectContent_find (l : List (List String)) :
    selectContent l
      = (match l.find? (fun els => !els.isEmpty) with
         | some els => joinSep " " (els.map pyStrip)
         | none => "") := by
  induction l with
  | nil => rfl
  | cons els rest ih =>
    by_cases h : els = []
    · simp [selectContent, List.find?, h, ih]
    · have hne : els.isEmpty = false := by
        cases els with
        | nil => exact absurd rfl h
        | cons x xs => rfl
      simp [selectContent, List.find?, h, hne]

/-- C5, counterexample: a document whose first selector strategy yields
one element of pure whitespace. The claim says extraction uses that
strategy (joined trimmed text, here the empty string) and that the
paragraph fallback is reserved for the case where every strategy yields
zero elements; the code instead falls back whenever the joined text is
falsy, so the output is the paragraph scan, not the selector join. -/
theorem content_selector_counterexample :
    (content_selectors ⟨[" "], [], [], [], [], ["Real content here"]⟩).head?
        = some [" "]
    ∧ selectContent (content_selectors ⟨[" "], [], [], [], [], ["Real content here"]⟩)
        = ""
    ∧ get_article_content (some ⟨[" "], [], [], [], [], ["Real content here"]⟩)
        = "Real content here"
    ∧ get_article_content (some ⟨[" "], [], [], [], [], ["Real content here"]⟩)
        ≠ selectContent (content_selectors ⟨[" "], [], [], [], [], ["Real content here"]⟩) := by
  refine ⟨by decide, by decide, by decide, by decide⟩

/-- C5, amended: extraction evaluates the ordered strategies and takes
the first yielding one or more elements, joining their trimmed texts
with single spaces; the output is that join truncated to 2000
characters — unless the join is the empty string (in particular
whenever every strategy yields zero elements), in which case the output
is the trimmed texts of the first 10 paragraphs joined with single
spaces, truncated to 2000 characters. -/
theorem content_selector_amended (d : Doc) :
    selectContent (content_selectors d)
        = (match (content_selectors d).find? (fun els => !els.isEmpty) with
           | some els => joinSep " " (els.map pyStrip)
           | none => "")
    ∧ (selectContent (content_selectors d) ≠ "" →
        get_article_content (some d)
          = strTake (selectContent (content_selectors d)) 2000)
    ∧ (selectContent (content_selectors d) = "" →
        get_article_content (some d) = strTake (paraFallback d) 2000)
    ∧ ((∀ els ∈ content_selectors d, els = []) →
        selectContent (content_selectors d) = "") := by
  refine ⟨selectContent_find _, ?_, ?_, ?_⟩
  · intro h
    simp only [get_article_content]
    rw [if_neg h]
  · intro h
    simp only [get_article_content]
    rw [if_pos h]
  · intro h
    rw [selectContent_find]
    have hnone : (content_selectors d).find? (fun els => !els.isEmpty) = none := by
      rw [List.find?_eq_none]
      intro x hx
      simp [h x hx]
    rw [hnone]

/-- Witness for the amended claim of C5: the selector branch at a document
whose first strategy has real text, and the fallback branch at the
whitespace-only document. -/
theorem content_selector_amended_witness :
    get_article_content (some ⟨["Hello there friend"], [], [], [], [], ["para"]⟩)
      = strTake (selectContent (content_selectors
          ⟨["Hello there friend"], [], [], [], [], ["para"]⟩)) 2000
    ∧ get_article_content (some ⟨[" "], [], [], [], [], ["Real content here"]⟩)
      = strTake (paraFallback ⟨[" "], [], [], [], [], ["Real content here"]⟩) 2000 :=
  ⟨(content_selector_amended ⟨["Hello there friend"], [], [], [], [], ["para"]⟩).2.1
      (by decide),
   (content_selector_amended ⟨[" "], [], [], [], [], ["Real content here"]⟩).2.2.1
      (by decide)⟩

/-- C9: whenever article discovery yields the empty list — in particular
when the homepage fetch fails, which yields the empty list — the
pipeline entry point only logs a warning and returns: no email body is
produced and the Summarizer, the Renderer and the send collaborator are
never invoked. -/
theorem pipeline_empty_aborts_early (fetch : Option (List Anchor))
    (g : String → String) (call : String → Nat → Option String) (today : String)
    (h : scrape_articles fetch g 10 = []) :
    run_daily_summary fetch g call today = ([PipeEvent.warnNoArticles], none)
    ∧ PipeEvent.summarizerCall ∉ (run_daily_summary fetch g call today).1
    ∧ PipeEvent.rendererCall ∉ (run_daily_summary fetch g call today).1
    ∧ PipeEvent.sendCall ∉ (run_daily_summary fetch g call today).1
    ∧ (∀ g2 : String → String, scrape_articles none g2 10 = []) := by
  have h1 : run_daily_summary fetch g call today = ([PipeEvent.warnNoArticles], none) := by
    simp only [run_daily_summary, h]
    rfl
  refine ⟨h1, ?_, ?_, ?_, fun g2 => rfl⟩ <;> rw [h1] <;> decide

/-- Witness for C9 at the failing homepage fetch. -/
theorem pipeline_empty_aborts_early_witness :
    run_daily_summary none (fun _ => "") (fun _ _ => none) "May 05, 2025"
      = ([PipeEvent.warnNoArticles], none) :=
  (pipeline_empty_aborts_early none (fun _ => "") (fun _ _ => none) "May 05, 2025"
    rfl).1
